import Mathlib

/-
Verification of the keri-governance core: a shallow embedding of
`keri_governance/primitives.py`, `keri_governance/resolver.py` and
`keri_governance/evolution.py`, with theorems settling the stated
properties of the constraint algebra, the framework resolver's
supersession-chain walk, and the governance evolution state machine.

Python dictionaries are modelled as association lists (newest binding
first); Python truthiness of optional strings (None and "" are falsy) is
modelled explicitly; Python exceptions crossing a function boundary are
modelled with `Except Unit`; the unbounded `while` loops of
`resolve_chain` are modelled with an explicit fuel parameter, where the
result `none` means the loop was still running when the fuel ran out.
-/

/-- Edge constraint operators, from `primitives.py` (`class EdgeOperator`). -/
inductive EdgeOperator where
  | I2I
  | DI2I
  | NI2I
  | ANY
deriving DecidableEq, Repr

/-- Operator strength mapping from `primitives.py` (`OPERATOR_STRENGTH`): higher is stronger. -/
def OPERATOR_STRENGTH : EdgeOperator → Nat
  | .ANY => 0
  | .NI2I => 1
  | .DI2I => 2
  | .I2I => 3

/-- Source `primitives.operator_satisfies`: actual is at least as strong as required. -/
def operator_satisfies (actual required : EdgeOperator) : Bool :=
  OPERATOR_STRENGTH actual ≥ OPERATOR_STRENGTH required

/-- Verification strength levels, from `primitives.py` (`class StrengthLevel`, an IntEnum). -/
inductive StrengthLevel where
  | ANY
  | SAID_ONLY
  | KEL_ANCHORED
  | TEL_ANCHORED
deriving DecidableEq, Repr

/-- The integer value carried by each `StrengthLevel` variant in the source IntEnum. -/
def StrengthLevel.value : StrengthLevel → Nat
  | .ANY => 0
  | .SAID_ONLY => 1
  | .KEL_ANCHORED => 2
  | .TEL_ANCHORED => 3

/-- Source `primitives.strength_satisfies`: IntEnum comparison `actual >= required`. -/
def strength_satisfies (actual required : StrengthLevel) : Bool :=
  actual.value ≥ required.value

/-- Rule enforcement level. Modelled from the spec: `RuleEnforcement` lives in
`keri_governance/schema.py`, which is not under src/; the spec lists the two
levels STRICT and ADVISORY. -/
inductive RuleEnforcement where
  | STRICT
  | ADVISORY
deriving DecidableEq, Repr

/-- Modelled from the spec: `ConstraintRule` (schema.py is not under src/) —
an immutable record with name, description, an edge-type matcher, a required
operator, labelled field-constraint expression sources, an optional maximum
delegation depth, and an enforcement level. -/
structure ConstraintRule where
  name : String
  description : String
  applies_to : String
  required_operator : EdgeOperator
  field_constraints : List (String × String)
  max_delegation_depth : Option Nat
  enforcement : RuleEnforcement
deriving DecidableEq, Repr

/-- Modelled from the spec: `CredentialMatrixEntry` (schema.py is not under
src/) — one cell of a role-by-action authorization grid. -/
structure CredentialMatrixEntry where
  action : String
  role : String
  required_operator : EdgeOperator
  allowed : Bool
deriving DecidableEq, Repr

/-- Modelled from the spec: `GovernanceFramework` (schema.py is not under
src/) — the parsed form of a governance framework credential. The spec's
`version_info : FrameworkVersion` is flattened into the `version` field
(its said/supersedes_said/steward_aid duplicate the top-level fields), and
the `raw` provenance copy is omitted, since no observed behavior reads it. -/
structure GovernanceFramework where
  said : String
  name : String
  version : String
  supersedes : Option String
  steward : Option String
  rules : List ConstraintRule
  credential_matrix : List CredentialMatrixEntry
  authorities : List (String × List String)
deriving DecidableEq, Repr

/-- Python truthiness of an optional string: `None` and `""` are falsy. -/
def strTruthy : Option String → Bool
  | none => false
  | some s => !(s == "")

/-- Association-list lookup, modelling Python `dict` indexing/membership.
Insertion is modelled by prepending, so the first binding wins. -/
def assocGet {α : Type} (d : List (String × α)) (k : String) : Option α :=
  match d with
  | [] => none
  | (k2, v) :: rest => if k2 = k then some v else assocGet rest k

/-- Classification of the raw value produced by the credential-fetch
callback after the `data`/`raw` attribute unwrapping in
`FrameworkResolver.resolve` (resolver.py lines 129-141). Modelled from the
spec for the parse step: `GovernanceFramework.from_credential` lives in
schema.py, which is not under src/; the spec says resolution parses the raw
credential and any shape/parse error degrades to "not found". -/
inductive RawCred where
  | notDict
  | unparseable
  | parsed (fw : GovernanceFramework)
deriving DecidableEq, Repr

/-- Outcome of one call to the injected credential-fetch callback: the
callback may raise an exception, return `None`, or return some raw value. -/
inductive FetchOutcome where
  | raises
  | returns (v : Option RawCred)
deriving DecidableEq, Repr

/-- The mutable state owned by a `FrameworkResolver`: the SAID-keyed cache
(`self._cache`) and the forward supersession index (`self._superseded_by`,
mapping old_said to new_said). -/
structure ResolverState where
  cache : List (String × GovernanceFramework)
  supersededBy : List (String × String)
deriving DecidableEq, Repr

/-- A fresh `FrameworkResolver`'s state. -/
def emptyResolver : ResolverState where
  cache := []
  supersededBy := []

namespace FrameworkResolver

/-- Source `FrameworkResolver.resolve` (resolver.py lines 104-146). Checks the
cache; on a miss invokes the fetch callback (when configured). The callback
call itself is NOT wrapped in try/except in the source, so a raising
callback propagates (`Except.error`); only the parse step is guarded. On a
successful parse the framework is cached under the queried SAID and, when
its `supersedes` field is truthy, a forward supersession edge is recorded. -/
def resolve (fetchOpt : Option (String → FetchOutcome)) (st : ResolverState)
    (framework_said : String) :
    Except Unit (Option GovernanceFramework × ResolverState) :=
  match assocGet st.cache framework_said with
  | some fw => .ok (some fw, st)
  | none =>
    match fetchOpt with
    | none => .ok (none, st)
    | some fetch =>
      match fetch framework_said with
      | .raises => .error ()
      | .returns none => .ok (none, st)
      | .returns (some .notDict) => .ok (none, st)
      | .returns (some .unparseable) => .ok (none, st)
      | .returns (some (.parsed fw)) =>
        let st1 : ResolverState :=
          { st with cache := (framework_said, fw) :: st.cache }
        let st2 : ResolverState :=
          match fw.supersedes with
          | none => st1
          | some s =>
            if s = "" then st1
            else { st1 with supersededBy := (s, fw.said) :: st1.supersededBy }
        .ok (some fw, st2)

/-- Source `FrameworkResolver.register` (resolver.py lines 148-160): cache the
framework under its own SAID and record its supersession edge if truthy. -/
def register (st : ResolverState) (framework : GovernanceFramework) : ResolverState :=
  let st1 : ResolverState := { st with cache := (framework.said, framework) :: st.cache }
  match framework.supersedes with
  | none => st1
  | some s =>
    if s = "" then st1
    else { st1 with supersededBy := (s, framework.said) :: st1.supersededBy }

/-- Source `FrameworkResolver.register_supersession` (resolver.py lines 171-184):
record that `new_said` supersedes `old_said` in the forward index. -/
def register_supersession (st : ResolverState) (new_said old_said : String) :
    ResolverState :=
  { st with supersededBy := (old_said, new_said) :: st.supersededBy }

/-- The backward loop of `resolve_chain` (resolver.py lines 205-215):
repeatedly follow `supersedes` to older versions, stopping when the field
is falsy, the referenced version does not resolve, or the resolved SAID was
already visited. `fuel` bounds the iterations of the unbounded Python
`while`; `.ok none` means the fuel ran out with the loop still running. -/
def backWalk (fetchOpt : Option (String → FetchOutcome)) :
    Nat → ResolverState → GovernanceFramework → List String →
    List GovernanceFramework →
    Except Unit (Option (List GovernanceFramework × List String × ResolverState))
  | fuel, st, current, seen, acc =>
    match current.supersedes with
    | none => .ok (some (acc, seen, st))
    | some s =>
      if s = "" then .ok (some (acc, seen, st))
      else
        match fuel with
        | 0 => .ok none
        | fuel + 1 =>
          match resolve fetchOpt st s with
          | .error e => .error e
          | .ok (none, st1) => .ok (some (acc, seen, st1))
          | .ok (some prior, st1) =>
            if prior.said ∈ seen then .ok (some (acc, seen, st1))
            else backWalk fetchOpt fuel st1 prior (prior.said :: seen) (acc ++ [prior])

/-- The forward loop of `resolve_chain` (resolver.py lines 217-229):
repeatedly follow the forward supersession index to newer versions, with
the same visited-set and resolution-failure guards. The membership test is
on the index value `next_said` before resolving it, exactly as in the
source. -/
def fwdWalk (fetchOpt : Option (String → FetchOutcome)) :
    Nat → ResolverState → GovernanceFramework → List String →
    List GovernanceFramework →
    Except Unit (Option (List GovernanceFramework × List String × ResolverState))
  | fuel, st, current, seen, acc =>
    match assocGet st.supersededBy current.said with
    | none => .ok (some (acc, seen, st))
    | some nextSaid =>
      if nextSaid ∈ seen then .ok (some (acc, seen, st))
      else
        match fuel with
        | 0 => .ok none
        | fuel + 1 =>
          match resolve fetchOpt st nextSaid with
          | .error e => .error e
          | .ok (none, st1) => .ok (some (acc, seen, st1))
          | .ok (some newer, st1) =>
            fwdWalk fetchOpt fuel st1 newer (newer.said :: seen) (acc ++ [newer])

end FrameworkResolver

/-- Source `VersionChain` (resolver.py lines 24-71): a resolved supersession
lineage, ordered newest first. -/
structure VersionChain where
  versions : List GovernanceFramework
deriving DecidableEq, Repr

/-- Property `VersionChain.active`: the newest version, if any. -/
def VersionChain.active (c : VersionChain) : Option GovernanceFramework :=
  c.versions.head?

/-- Property `VersionChain.active_said`: SAID of the active version. -/
def VersionChain.active_said (c : VersionChain) : Option String :=
  c.versions.head?.map (fun v => v.said)

/-- Property `VersionChain.depth`: number of versions in the chain. -/
def VersionChain.depth (c : VersionChain) : Nat :=
  c.versions.length

/-- Method `VersionChain.saids`: all SAIDs in the chain, newest first. -/
def VersionChain.saids (c : VersionChain) : List String :=
  c.versions.map (fun v => v.said)

namespace FrameworkResolver

/-- Source `FrameworkResolver.resolve_chain` (resolver.py lines 186-233): resolve
the start, walk backward for ancestors seeding the visited set with the
start's SAID, walk forward for descendants, and assemble
reverse(descendants) ++ [start] ++ ancestors, newest first. -/
def resolve_chain (fetchOpt : Option (String → FetchOutcome)) (fuel : Nat)
    (st : ResolverState) (framework_said : String) :
    Except Unit (Option (VersionChain × ResolverState)) :=
  match resolve fetchOpt st framework_said with
  | .error e => .error e
  | .ok (none, st1) => .ok (some (⟨[]⟩, st1))
  | .ok (some start, st1) =>
    match backWalk fetchOpt fuel st1 start [start.said] [] with
    | .error e => .error e
    | .ok none => .ok none
    | .ok (some (ancestors, seen1, st2)) =>
      match fwdWalk fetchOpt fuel st2 start seen1 [] with
      | .error e => .error e
      | .ok none => .ok none
      | .ok (some (descendants, _, st3)) =>
        .ok (some (⟨descendants.reverse ++ start :: ancestors⟩, st3))

/-- Source `FrameworkResolver.resolve_active` (resolver.py lines 235-249): the head
of the resolved chain. -/
def resolve_active (fetchOpt : Option (String → FetchOutcome)) (fuel : Nat)
    (st : ResolverState) (framework_said : String) :
    Except Unit (Option (Option GovernanceFramework × ResolverState)) :=
  match resolve_chain fetchOpt fuel st framework_said with
  | .error e => .error e
  | .ok none => .ok none
  | .ok (some (c, st1)) => .ok (some (c.active, st1))

end FrameworkResolver

/-- Source `EvolutionResult` (evolution.py lines 37-44): outcome of one evolution
operation. -/
structure EvolutionResult where
  success : Bool
  new_framework : Option GovernanceFramework
  prior_said : Option String
  mode : String
  reason : String
deriving DecidableEq, Repr

/-- The content of the credential dict assembled by `supersede` /
`evolve_from_ratification` before its SAID fields are filled in: everything
the injected `credential_factory` can observe (evolution.py lines 172-190
and 303-325). -/
structure CredContent where
  issuer : String
  name : String
  version : String
  rules : List ConstraintRule
  credential_matrix : List CredentialMatrixEntry
  authorities : List (String × List String)
  supersedes : String
  ratification : Option String
  evolution_mode : Option String
deriving DecidableEq, Repr

/-- The `ratification_data` mapping consumed by `evolve_from_ratification`
(evolution.py lines 240-246 documents the keys): each key either absent or
present. The proposed rules and matrix are modelled already parsed; the
source parses them from dicts via schema constructors that are not
exercised by any claim. -/
structure RatificationData where
  proposer_aid : Option String
  proposed_rules : Option (List ConstraintRule)
  proposed_matrix : Option (List CredentialMatrixEntry)
  proposed_authorities : Option (List (String × List String))
  proposed_name : Option String
  proposed_version : Option String
deriving DecidableEq, Repr

/-- Accepts the digit tail of a Python integer literal once the first digit
has been consumed: digits, with single underscores only between digits. -/
def pyDigitsAux : List Char → Bool
  | [] => true
  | '_' :: c :: cs => c.isDigit && pyDigitsAux cs
  | ['_'] => false
  | c :: cs => c.isDigit && pyDigitsAux cs

/-- Whole digit run of a Python integer literal: nonempty, starts with a
digit, single underscores only between digits. -/
def pyDigitsOk : List Char → Bool
  | [] => false
  | c :: cs => c.isDigit && pyDigitsAux cs

/-- Numeric value of a digit run, underscores removed. -/
def digitsVal (cs : List Char) : Nat :=
  (cs.filter (fun c => c ≠ '_')).foldl (fun a c => a * 10 + (c.toNat - 48)) 0

/-- Strip leading and trailing whitespace, as Python `int` does before
parsing. -/
def trimChars (cs : List Char) : List Char :=
  ((cs.dropWhile Char.isWhitespace).reverse.dropWhile Char.isWhitespace).reverse

/-- Python `int(s)` on a string (as a char list), restricted to ASCII:
optional surrounding whitespace, optional sign, then digits with single
internal underscores. Returns `none` exactly when Python `int` raises
ValueError. (Python also accepts non-ASCII decimal digits and Unicode
whitespace; no claim or call site involves those.) -/
def pyIntChars (cs : List Char) : Option Int :=
  match trimChars cs with
  | '+' :: rest => if pyDigitsOk rest then some (Int.ofNat (digitsVal rest)) else none
  | '-' :: rest => if pyDigitsOk rest then some (-(Int.ofNat (digitsVal rest))) else none
  | rest => if pyDigitsOk rest then some (Int.ofNat (digitsVal rest)) else none

/-- Python `str.split(".")`: split on every dot, keeping empty segments,
so the result always has one more segment than there are dots (`""` gives
`[""]`). -/
def splitDots : List Char → List (List Char)
  | [] => [[]]
  | c :: cs =>
    if c = '.' then [] :: splitDots cs
    else
      match splitDots cs with
      | [] => [[c]]
      | g :: gs => (c :: g) :: gs

namespace GovernanceEvolution

/-- Source `GovernanceEvolution._bump_version` (evolution.py lines 361-376):
split on dots; anything other than exactly three int-parsable parts falls
back to "1.1.0"; otherwise bump the minor component and zero the patch. -/
def bump_version (version : String) : String :=
  match splitDots version.toList with
  | [p0, p1, p2] =>
    match pyIntChars p0, pyIntChars p1, pyIntChars p2 with
    | some major, some minor, some _ =>
      toString major ++ "." ++ toString (minor + 1) ++ ".0"
    | _, _, _ => "1.1.0"
  | _ => "1.1.0"

/-- The Mode A authority gate of `supersede` (evolution.py line 150):
`if current.steward and current.steward != steward_aid` — returns the
failure reason when the gate trips, `none` when it passes. -/
def stewardFailure (steward : Option String) (steward_aid : String) : Option String :=
  match steward with
  | none => none
  | some s =>
    if s = "" then none
    else if s = steward_aid then none
    else some ("Steward " ++ steward_aid.take 16 ++
      "... is not authorized. Framework steward is " ++ s.take 16 ++ "...")

/-- Source `GovernanceEvolution.supersede` (evolution.py lines 109-224), Mode A:
resolve the current framework (a raising fetch callback propagates), apply
the steward authority gate, inherit unspecified fields, auto-bump the
version when unspecified, assemble the new credential, compute its SAID via
the injected factory, register the new framework and the supersession edge. -/
def supersede (fetchOpt : Option (String → FetchOutcome))
    (credential_factory : CredContent → String) (st : ResolverState)
    (current_said steward_aid : String)
    (new_name new_version : Option String)
    (new_rules : Option (List ConstraintRule))
    (new_matrix : Option (List CredentialMatrixEntry))
    (new_authorities : Option (List (String × List String)))
    (reason : String) :
    Except Unit (EvolutionResult × ResolverState) :=
  match FrameworkResolver.resolve fetchOpt st current_said with
  | .error e => .error e
  | .ok (none, st1) =>
    .ok ({ success := false, new_framework := none, prior_said := none,
           mode := "A",
           reason := "Current framework " ++ current_said ++ " not found" }, st1)
  | .ok (some current, st1) =>
    match stewardFailure current.steward steward_aid with
    | some msg =>
      .ok ({ success := false, new_framework := none,
             prior_said := some current_said, mode := "A", reason := msg }, st1)
    | none =>
      let name := new_name.getD current.name
      let rules := new_rules.getD current.rules
      let matrix := new_matrix.getD current.credential_matrix
      let authorities := new_authorities.getD current.authorities
      let version :=
        match new_version with
        | none => bump_version current.version
        | some v => v
      let content : CredContent :=
        { issuer := steward_aid, name := name, version := version,
          rules := rules, credential_matrix := matrix,
          authorities := authorities, supersedes := current_said,
          ratification := none, evolution_mode := none }
      let new_said := credential_factory content
      let new_framework : GovernanceFramework :=
        { said := new_said, name := name, version := version,
          supersedes := some current_said, steward := some steward_aid,
          rules := rules, credential_matrix := matrix,
          authorities := authorities }
      let st2 := FrameworkResolver.register st1 new_framework
      let st3 := FrameworkResolver.register_supersession st2 new_said current_said
      .ok ({ success := true, new_framework := some new_framework,
             prior_said := some current_said, mode := "A", reason := reason }, st3)

/-- Source `GovernanceEvolution.evolve_from_ratification` (evolution.py lines
226-359), Mode B: resolve the current framework, require a truthy
`proposer_aid` in the ratification data, inherit unspecified fields,
assemble the new credential with `supersedes` and `ratification` edges,
compute its SAID, register the new framework and the supersession edge. -/
def evolve_from_ratification (fetchOpt : Option (String → FetchOutcome))
    (credential_factory : CredContent → String) (st : ResolverState)
    (current_said ratification_said : String)
    (ratification_data : RatificationData) :
    Except Unit (EvolutionResult × ResolverState) :=
  match FrameworkResolver.resolve fetchOpt st current_said with
  | .error e => .error e
  | .ok (none, st1) =>
    .ok ({ success := false, new_framework := none, prior_said := none,
           mode := "B",
           reason := "Current framework " ++ current_said ++ " not found" }, st1)
  | .ok (some current, st1) =>
    match ratification_data.proposer_aid with
    | none =>
      .ok ({ success := false, new_framework := none,
             prior_said := some current_said, mode := "B",
             reason := "Ratification data missing \x27proposer_aid\x27" }, st1)
    | some proposer_aid =>
      if proposer_aid = "" then
        .ok ({ success := false, new_framework := none,
               prior_said := some current_said, mode := "B",
               reason := "Ratification data missing \x27proposer_aid\x27" }, st1)
      else
        let name := ratification_data.proposed_name.getD current.name
        let version :=
          match ratification_data.proposed_version with
          | none => bump_version current.version
          | some v => v
        let rules := ratification_data.proposed_rules.getD current.rules
        let matrix := ratification_data.proposed_matrix.getD current.credential_matrix
        let authorities := ratification_data.proposed_authorities.getD current.authorities
        let content : CredContent :=
          { issuer := proposer_aid, name := name, version := version,
            rules := rules, credential_matrix := matrix,
            authorities := authorities, supersedes := current_said,
            ratification := some ratification_said,
            evolution_mode := some "B" }
        let new_said := credential_factory content
        let new_framework : GovernanceFramework :=
          { said := new_said, name := name, version := version,
            supersedes := some current_said, steward := some proposer_aid,
            rules := rules, credential_matrix := matrix,
            authorities := authorities }
        let st2 := FrameworkResolver.register st1 new_framework
        let st3 := FrameworkResolver.register_supersession st2 new_said current_said
        .ok ({ success := true, new_framework := some new_framework,
               prior_said := some current_said, mode := "B",
               reason := "Ratified via " ++ ratification_said.take 16 ++ "..." }, st3)

end GovernanceEvolution

/-- One adjacent-pair step of the `VersionChain` invariant: if the newer
element records a supersedes SAID, it names the SAID of the next (older)
element. -/
def linkStep (x y : GovernanceFramework) : Bool :=
  match x.supersedes with
  | none => true
  | some s => s == y.said

/-- The `VersionChain` invariant stated in the spec: every adjacent pair
satisfies the supersedes-link step (the last element's supersedes, if any,
points outside the chain and is unconstrained), and no SAID appears twice. -/
def chainInvariant (c : VersionChain) : Prop :=
  List.Chain' (fun x y => linkStep x y = true) c.versions ∧
  (c.versions.map (fun v => v.said)).Nodup


/-- The cache is keyed consistently: every cached framework is stored under
its own SAID. `register` maintains this by construction; a fetch callback
returning a credential whose parsed SAID differs from the queried SAID is
the only way to break it. -/
def cacheConsistent (st : ResolverState) : Prop :=
  ∀ k fw, assocGet st.cache k = some fw → fw.said = k

/-- The forward supersession index is consistent with the cache: every
recorded edge old → new has a cached framework under key new whose
supersedes field is old. -/
def edgesConsistent (st : ResolverState) : Prop :=
  ∀ old new, assocGet st.supersededBy old = some new →
    ∃ fw, assocGet st.cache new = some fw ∧ fw.supersedes = some old

/-- Number of distinct cache keys not yet in the visited set: the
termination measure of both `resolve_chain` loops on a fetchless resolver. -/
def keysNotSeen (st : ResolverState) (seen : List String) : Nat :=
  ((st.cache.map Prod.fst).toFinset.filter (fun k => k ∉ seen)).card

/-- A version string that consists of exactly three dot-separated parts,
each accepted by Python `int`. -/
def threeIntParts (v : String) : Prop :=
  (splitDots v.toList).length = 3 ∧
    ∀ p ∈ splitDots v.toList, (pyIntChars p).isSome = true

instance (v : String) : Decidable (threeIntParts v) := by
  unfold threeIntParts
  infer_instance

/-- Minimal framework fixture for concrete witnesses. -/
def mkFw (said : String) (sup : Option String) (stew : Option String) :
    GovernanceFramework where
  said := said
  name := "Fixture"
  version := "1.0.0"
  supersedes := sup
  steward := stew
  rules := []
  credential_matrix := []
  authorities := []

/-- The resolver state reached by registering A, then B, then C, when A's
supersedes is falsy, B supersedes A's SAID (nonempty) and C supersedes B's
SAID (nonempty): all three cached under their own SAIDs, with forward edges
A → B and B → C. -/
def stABC (A B C : GovernanceFramework) : ResolverState where
  cache := [(C.said, C), (B.said, B), (A.said, A)]
  supersededBy := [(B.said, C.said), (A.said, B.said)]

/-- C9: `operator_satisfies` and `strength_satisfies` are the satisfaction
relations of total orders — reflexive, transitive, and antisymmetric —
under the fixed orders I2I > DI2I > NI2I > ANY and TEL_ANCHORED >
KEL_ANCHORED > SAID_ONLY > ANY. -/
theorem c9_total_order :
    (∀ a : EdgeOperator, operator_satisfies a a = true) ∧
    (∀ a b c : EdgeOperator, operator_satisfies a b = true →
      operator_satisfies b c = true → operator_satisfies a c = true) ∧
    (∀ a b : EdgeOperator, operator_satisfies a b = true →
      operator_satisfies b a = true → a = b) ∧
    (∀ a : StrengthLevel, strength_satisfies a a = true) ∧
    (∀ a b c : StrengthLevel, strength_satisfies a b = true →
      strength_satisfies b c = true → strength_satisfies a c = true) ∧
    (∀ a b : StrengthLevel, strength_satisfies a b = true →
      strength_satisfies b a = true → a = b) := by
  refine ⟨?_, ?_, ?_, ?_, ?_, ?_⟩
  · intro a; cases a <;> decide
  · intro a b c; cases a <;> cases b <;> cases c <;> decide
  · intro a b; cases a <;> cases b <;> decide
  · intro a; cases a <;> decide
  · intro a b c; cases a <;> cases b <;> cases c <;> decide
  · intro a b; cases a <;> cases b <;> decide

/-- Witness for C9: transitivity at I2I ≥ DI2I ≥ NI2I and antisymmetry at
TEL_ANCHORED. -/
theorem c9_total_order_witness :
    operator_satisfies EdgeOperator.I2I EdgeOperator.NI2I = true ∧
    StrengthLevel.TEL_ANCHORED = StrengthLevel.TEL_ANCHORED :=
  ⟨c9_total_order.2.1 EdgeOperator.I2I EdgeOperator.DI2I EdgeOperator.NI2I
      (by decide) (by decide),
   c9_total_order.2.2.2.2.2 StrengthLevel.TEL_ANCHORED StrengthLevel.TEL_ANCHORED
      (by decide) (by decide)⟩

/-- C2 counterexample: the fetch-callback call inside
`FrameworkResolver.resolve` is not wrapped in try/except (only the parse
step is, resolver.py lines 138-141), so a callback that raises propagates
the exception to the caller instead of yielding None. -/
theorem c2_counterexample :
    FrameworkResolver.resolve (some (fun _ => FetchOutcome.raises))
      emptyResolver "EFrameworkSAID" = .error () := rfl

/-- Helper: a resolve that succeeded leaves the framework cached under the
queried SAID, so any later resolve of that SAID — under any fetch callback
whatsoever — is a cache hit returning the same framework and state. -/
theorem resolve_stable (f : Option (String → FetchOutcome)) (st : ResolverState)
    (said : String) (fw : GovernanceFramework) (st1 : ResolverState)
    (h : FrameworkResolver.resolve f st said = .ok (some fw, st1)) :
    ∀ g, FrameworkResolver.resolve g st1 said = .ok (some fw, st1) := by
  intro g
  unfold FrameworkResolver.resolve at h
  cases hc : assocGet st.cache said with
  | some fw0 =>
    rw [hc] at h
    simp only [Except.ok.injEq, Prod.mk.injEq, Option.some.injEq] at h
    obtain ⟨h1, h2⟩ := h
    subst h1
    subst h2
    unfold FrameworkResolver.resolve
    rw [hc]
  | none =>
    rw [hc] at h
    cases f with
    | none => simp at h
    | some fetch =>
      cases hf : fetch said with
      | raises => simp [hf] at h
      | returns v =>
        cases v with
        | none => simp [hf] at h
        | some raw =>
          cases raw with
          | notDict => simp [hf] at h
          | unparseable => simp [hf] at h
          | parsed fw2 =>
            simp only [hf, Except.ok.injEq, Prod.mk.injEq, Option.some.injEq] at h
            obtain ⟨h1, h2⟩ := h
            subst h1
            have hcache : st1.cache = (said, fw2) :: st.cache := by
              rw [← h2]
              cases fw2.supersedes with
              | none => rfl
              | some s =>
                by_cases hs : s = "" <;> simp [hs]
            unfold FrameworkResolver.resolve
            rw [hcache]
            simp [assocGet]

/-- Helper: resolving right after `register` is a cache hit on the
registered framework, regardless of the fetch callback. -/
theorem resolve_after_register (f : Option (String → FetchOutcome))
    (st : ResolverState) (fw : GovernanceFramework) :
    FrameworkResolver.resolve f (FrameworkResolver.register st fw) fw.said =
      .ok (some fw, FrameworkResolver.register st fw) := by
  have hcache : (FrameworkResolver.register st fw).cache = (fw.said, fw) :: st.cache := by
    unfold FrameworkResolver.register
    cases fw.supersedes with
    | none => rfl
    | some s => by_cases hs : s = "" <;> simp [hs]
  unfold FrameworkResolver.resolve
  rw [hcache]
  simp [assocGet]

/-- C2 (amended): for every SAID not in cache, when the fetch callback
returns absent, a non-dict raw value, or content that fails to parse,
`resolve` returns None with the state unchanged and raises nothing; an
exception raised by the callback itself, however, propagates
(see c2_counterexample). -/
theorem c2_amended (f : String → FetchOutcome) (st : ResolverState) (said : String)
    (hc : assocGet st.cache said = none)
    (hf : f said = .returns none ∨ f said = .returns (some .notDict) ∨
      f said = .returns (some .unparseable)) :
    FrameworkResolver.resolve (some f) st said = .ok (none, st) := by
  rcases hf with hf | hf | hf <;> simp [FrameworkResolver.resolve, hc, hf]

/-- Witness for C2: an absent-returning callback on an empty resolver. -/
theorem c2_amended_witness :
    FrameworkResolver.resolve (some (fun _ => FetchOutcome.returns none))
      emptyResolver "EFrameworkSAID" = .ok (none, emptyResolver) :=
  c2_amended (fun _ => FetchOutcome.returns none) emptyResolver "EFrameworkSAID"
    rfl (Or.inl rfl)

/-- C6: caching round-trip — after a successful resolve the same SAID
resolves to the value-equal framework with unchanged state and without
consulting the fetch callback (the second resolve's result is independent
of the callback, quantified over every `g`); and resolve after `register`
returns the registered framework the same way. -/
theorem c6_cache_roundtrip :
    (∀ (f : Option (String → FetchOutcome)) (st : ResolverState) (said : String)
      (fw : GovernanceFramework) (st1 : ResolverState),
      FrameworkResolver.resolve f st said = .ok (some fw, st1) →
      ∀ g, FrameworkResolver.resolve g st1 said = .ok (some fw, st1)) ∧
    (∀ (f : Option (String → FetchOutcome)) (st : ResolverState)
      (fw : GovernanceFramework),
      FrameworkResolver.resolve f (FrameworkResolver.register st fw) fw.said =
        .ok (some fw, FrameworkResolver.register st fw)) :=
  ⟨resolve_stable, resolve_after_register⟩

/-- Witness for C6: a concrete registered framework resolves to itself with
no fetch callback configured, twice. -/
theorem c6_cache_roundtrip_witness :
    FrameworkResolver.resolve none
      (FrameworkResolver.register emptyResolver (mkFw "EA" none none)) "EA" =
      .ok (some (mkFw "EA" none none),
        FrameworkResolver.register emptyResolver (mkFw "EA" none none)) :=
  c6_cache_roundtrip.1 none
    (FrameworkResolver.register emptyResolver (mkFw "EA" none none)) "EA"
    (mkFw "EA" none none)
    (FrameworkResolver.register emptyResolver (mkFw "EA" none none))
    (c6_cache_roundtrip.2 none emptyResolver (mkFw "EA" none none)) none

/-- Helper: `resolve_chain` is unaffected by replaying a resolve that has
already succeeded — the chain walk from the original state and from the
post-resolve state coincide, because the chain walk itself begins with the
same resolve. -/
theorem resolve_chain_stable (f : Option (String → FetchOutcome)) (fuel : Nat)
    (st : ResolverState) (said : String) (fw : GovernanceFramework)
    (st1 : ResolverState)
    (h : FrameworkResolver.resolve f st said = .ok (some fw, st1)) :
    FrameworkResolver.resolve_chain f fuel st said =
      FrameworkResolver.resolve_chain f fuel st1 said := by
  unfold FrameworkResolver.resolve_chain
  rw [h, resolve_stable f st said fw st1 h f]

/-- Helper: `resolve_active` is likewise unaffected by a replayed resolve. -/
theorem resolve_active_stable (f : Option (String → FetchOutcome)) (fuel : Nat)
    (st : ResolverState) (said : String) (fw : GovernanceFramework)
    (st1 : ResolverState)
    (h : FrameworkResolver.resolve f st said = .ok (some fw, st1)) :
    FrameworkResolver.resolve_active f fuel st1 said =
      FrameworkResolver.resolve_active f fuel st said := by
  unfold FrameworkResolver.resolve_active
  rw [resolve_chain_stable f fuel st said fw st1 h]

/-- C3: `supersede` with a steward_aid different from the current
framework's recorded non-empty steward fails with a reason naming both
identifiers (truncated to 16 characters), returns exactly the state
produced by the lookup of the current framework (so nothing is registered:
no new framework, no supersession edge), and the lineage's active version
is unchanged. -/
theorem c3_steward_mismatch (f : Option (String → FetchOutcome))
    (fac : CredContent → String) (st : ResolverState) (cs aid : String)
    (nn nv : Option String) (nr : Option (List ConstraintRule))
    (nm : Option (List CredentialMatrixEntry))
    (na : Option (List (String × List String))) (rsn : String)
    (current : GovernanceFramework) (st1 : ResolverState) (s : String) (fuel : Nat)
    (hres : FrameworkResolver.resolve f st cs = .ok (some current, st1))
    (hstew : current.steward = some s) (hne : s ≠ "") (hneq : s ≠ aid) :
    GovernanceEvolution.supersede f fac st cs aid nn nv nr nm na rsn =
      .ok ({ success := false, new_framework := none, prior_said := some cs,
             mode := "A",
             reason := "Steward " ++ aid.take 16 ++
               "... is not authorized. Framework steward is " ++
               s.take 16 ++ "..." }, st1) ∧
    FrameworkResolver.resolve_active f fuel st1 cs =
      FrameworkResolver.resolve_active f fuel st cs := by
  constructor
  · unfold GovernanceEvolution.supersede
    rw [hres]
    simp [GovernanceEvolution.stewardFailure, hstew, hne, hneq]
  · exact resolve_active_stable f fuel st cs current st1 hres

/-- Witness for C3: a registered framework stewarded by "ESTEWARD", with a
supersession attempt by "EIMPOSTOR". -/
theorem c3_steward_mismatch_witness :
    GovernanceEvolution.supersede none (fun _ => "ENEW")
      (FrameworkResolver.register emptyResolver (mkFw "EC" none (some "ESTEWARD")))
      "EC" "EIMPOSTOR" none none none none none "" =
      .ok ({ success := false, new_framework := none, prior_said := some "EC",
             mode := "A",
             reason := "Steward " ++ "EIMPOSTOR".take 16 ++
               "... is not authorized. Framework steward is " ++
               "ESTEWARD".take 16 ++ "..." },
        FrameworkResolver.register emptyResolver (mkFw "EC" none (some "ESTEWARD"))) ∧
    FrameworkResolver.resolve_active none 1
      (FrameworkResolver.register emptyResolver (mkFw "EC" none (some "ESTEWARD"))) "EC" =
    FrameworkResolver.resolve_active none 1
      (FrameworkResolver.register emptyResolver (mkFw "EC" none (some "ESTEWARD"))) "EC" :=
  c3_steward_mismatch none (fun _ => "ENEW")
    (FrameworkResolver.register emptyResolver (mkFw "EC" none (some "ESTEWARD")))
    "EC" "EIMPOSTOR" none none none none none "" (mkFw "EC" none (some "ESTEWARD"))
    (FrameworkResolver.register emptyResolver (mkFw "EC" none (some "ESTEWARD")))
    "ESTEWARD" 1 rfl rfl (by decide) (by decide)

/-- C8: `evolve_from_ratification` with ratification data lacking a truthy
proposer_aid fails with a reason naming the missing field and returns
exactly the state produced by the lookup of the current framework, so no
new framework is cached and no supersession edge is recorded. -/
theorem c8_missing_proposer (f : Option (String → FetchOutcome))
    (fac : CredContent → String) (st : ResolverState) (cs rs : String)
    (rdata : RatificationData) (current : GovernanceFramework) (st1 : ResolverState)
    (hres : FrameworkResolver.resolve f st cs = .ok (some current, st1))
    (hp : rdata.proposer_aid = none ∨ rdata.proposer_aid = some "") :
    GovernanceEvolution.evolve_from_ratification f fac st cs rs rdata =
      .ok ({ success := false, new_framework := none, prior_said := some cs,
             mode := "B",
             reason := "Ratification data missing \x27proposer_aid\x27" }, st1) := by
  unfold GovernanceEvolution.evolve_from_ratification
  rw [hres]
  rcases hp with hp | hp <;> simp [hp]

/-- Witness for C8: a registered framework and ratification data whose
proposer_aid is absent. -/
theorem c8_missing_proposer_witness :
    GovernanceEvolution.evolve_from_ratification none (fun _ => "ENEW")
      (FrameworkResolver.register emptyResolver (mkFw "EC8" none none))
      "EC8" "ERAT"
      { proposer_aid := none, proposed_rules := none, proposed_matrix := none,
        proposed_authorities := none, proposed_name := none,
        proposed_version := none } =
      .ok ({ success := false, new_framework := none, prior_said := some "EC8",
             mode := "B",
             reason := "Ratification data missing \x27proposer_aid\x27" },
        FrameworkResolver.register emptyResolver (mkFw "EC8" none none)) :=
  c8_missing_proposer none (fun _ => "ENEW")
    (FrameworkResolver.register emptyResolver (mkFw "EC8" none none))
    "EC8" "ERAT"
    { proposer_aid := none, proposed_rules := none, proposed_matrix := none,
      proposed_authorities := none, proposed_name := none,
      proposed_version := none }
    (mkFw "EC8" none none)
    (FrameworkResolver.register emptyResolver (mkFw "EC8" none none))
    rfl (Or.inl rfl)

/-- C10: when the resolvable current framework's steward is unset (None or
empty), `supersede` performs no authority check — it succeeds for every
supplied steward_aid, and that steward_aid becomes the steward of the newly
registered version (which supersedes the current SAID). -/
theorem c10_no_steward_check (f : Option (String → FetchOutcome))
    (fac : CredContent → String) (st : ResolverState) (cs aid : String)
    (nn nv : Option String) (nr : Option (List ConstraintRule))
    (nm : Option (List CredentialMatrixEntry))
    (na : Option (List (String × List String))) (rsn : String)
    (current : GovernanceFramework) (st1 : ResolverState)
    (hres : FrameworkResolver.resolve f st cs = .ok (some current, st1))
    (hstew : current.steward = none ∨ current.steward = some "") :
    ∃ fw st2,
      GovernanceEvolution.supersede f fac st cs aid nn nv nr nm na rsn =
        .ok ({ success := true, new_framework := some fw,
               prior_said := some cs, mode := "A", reason := rsn }, st2) ∧
      fw.steward = some aid ∧ fw.supersedes = some cs := by
  unfold GovernanceEvolution.supersede
  rw [hres]
  rcases hstew with hs | hs <;>
    simp [GovernanceEvolution.stewardFailure, hs]

/-- Witness for C10: a stewardless framework superseded by an arbitrary
caller. -/
theorem c10_no_steward_check_witness :
    ∃ fw st2,
      GovernanceEvolution.supersede none (fun _ => "ENEW")
        (FrameworkResolver.register emptyResolver (mkFw "EC10" none none))
        "EC10" "EANYONE" none none none none none "why not" =
        .ok ({ success := true, new_framework := some fw,
               prior_said := some "EC10", mode := "A", reason := "why not" }, st2) ∧
      fw.steward = some "EANYONE" ∧ fw.supersedes = some "EC10" :=
  c10_no_steward_check none (fun _ => "ENEW")
    (FrameworkResolver.register emptyResolver (mkFw "EC10" none none))
    "EC10" "EANYONE" none none none none none "why not"
    (mkFw "EC10" none none)
    (FrameworkResolver.register emptyResolver (mkFw "EC10" none none))
    rfl (Or.inl rfl)

/-- Helper: a version whose dot-split does not have exactly three segments
falls into the default arm of `bump_version`'s pattern match. -/
theorem bump_version_default (v : String)
    (h3 : (splitDots v.toList).length ≠ 3) :
    GovernanceEvolution.bump_version v = "1.1.0" := by
  unfold GovernanceEvolution.bump_version
  rcases hl : splitDots v.toList with _ | ⟨a, _ | ⟨b, _ | ⟨c, _ | ⟨d, t⟩⟩⟩⟩
  · rfl
  · rfl
  · rfl
  · exact absurd (by rw [hl]; rfl : (splitDots v.toList).length = 3) h3
  · rfl

/-- C7: with new_version unspecified, `supersede` gives the new framework
the auto-bumped version of the current one; `_bump_version` maps "1.2.3"
to "1.3.0", and maps every string that is not exactly three dot-separated
Python-int parts to "1.1.0". -/
theorem c7_version_bump :
    GovernanceEvolution.bump_version "1.2.3" = "1.3.0" ∧
    (∀ v : String, ¬ threeIntParts v →
      GovernanceEvolution.bump_version v = "1.1.0") ∧
    (∀ (f : Option (String → FetchOutcome)) (fac : CredContent → String)
      (st : ResolverState) (cs aid : String) (nn : Option String)
      (nr : Option (List ConstraintRule))
      (nm : Option (List CredentialMatrixEntry))
      (na : Option (List (String × List String))) (rsn : String)
      (current : GovernanceFramework) (st1 : ResolverState)
      (res : EvolutionResult) (st2 : ResolverState),
      FrameworkResolver.resolve f st cs = .ok (some current, st1) →
      GovernanceEvolution.supersede f fac st cs aid nn none nr nm na rsn =
        .ok (res, st2) →
      ∀ fw, res.new_framework = some fw →
        fw.version = GovernanceEvolution.bump_version current.version) ∧
    (∀ (v : String) (p0 p1 p2 : List Char) (major minor patch : Int),
      splitDots v.toList = [p0, p1, p2] →
      pyIntChars p0 = some major → pyIntChars p1 = some minor →
      pyIntChars p2 = some patch →
      GovernanceEvolution.bump_version v =
        toString major ++ "." ++ toString (minor + 1) ++ ".0") := by
  refine ⟨by decide, ?_, ?_, ?_⟩
  · intro v hv
    by_cases h3 : (splitDots v.toList).length = 3
    · obtain ⟨a, b, c, hl⟩ := List.length_eq_three.mp h3
      unfold GovernanceEvolution.bump_version
      rw [hl]
      have hbad : ¬ ∀ p ∈ splitDots v.toList, (pyIntChars p).isSome = true := by
        intro hall
        exact hv ⟨h3, hall⟩
      rw [hl] at hbad
      cases ha : pyIntChars a with
      | none => simp [ha]
      | some ia =>
        cases hb : pyIntChars b with
        | none => simp [ha, hb]
        | some ib =>
          cases hcc : pyIntChars c with
          | none => simp [ha, hb, hcc]
          | some ic =>
            exact absurd (by
              simp only [List.mem_cons, List.not_mem_nil, or_false, forall_eq_or_imp,
                forall_eq]
              exact ⟨by simp [ha], by simp [hb], by simp [hcc]⟩) hbad
    · exact bump_version_default v h3
  · intro f fac st cs aid nn nr nm na rsn current st1 res st2 hres hsup fw hfw
    unfold GovernanceEvolution.supersede at hsup
    rw [hres] at hsup
    cases hsf : GovernanceEvolution.stewardFailure current.steward aid with
    | some msg =>
      simp [hsf] at hsup
      obtain ⟨h1, h2⟩ := hsup
      subst h1
      simp at hfw
    | none =>
      simp [hsf] at hsup
      obtain ⟨h1, h2⟩ := hsup
      subst h1
      simp at hfw
      subst hfw
      rfl
  · intro v p0 p1 p2 major minor patch hsplit hp0 hp1 hp2
    unfold GovernanceEvolution.bump_version
    simp only [hsplit, hp0, hp1, hp2]

/-- Witness for C7: the malformed version string "not-a-version" falls back
to "1.1.0". -/
theorem c7_version_bump_witness :
    GovernanceEvolution.bump_version "not-a-version" = "1.1.0" :=
  c7_version_bump.2.1 "not-a-version" (by decide)

/-- Helper: with no fetch callback, `resolve` is a pure cache lookup and
never changes state or raises. -/
theorem resolve_none_fetch (st : ResolverState) (said : String) :
    FrameworkResolver.resolve none st said = .ok (assocGet st.cache said, st) := by
  unfold FrameworkResolver.resolve
  cases h : assocGet st.cache said <;> simp [h]

/-- Helper: a falsy optional string is either absent or empty. -/
theorem strTruthy_false {o : Option String} (h : strTruthy o = false) :
    o = none ∨ o = some "" := by
  cases o with
  | none => exact Or.inl rfl
  | some s =>
    simp [strTruthy] at h
    exact Or.inr (by rw [h])

/-- Helper: a link-valid chain ending in a junction element extends by any
link-valid continuation starting at that element. -/
theorem chain_link_append (xs : List GovernanceFramework)
    (m : GovernanceFramework) (ys : List GovernanceFramework)
    (h1 : List.Chain' (fun x y => linkStep x y = true) (xs ++ [m]))
    (h2 : List.Chain' (fun x y => linkStep x y = true) (m :: ys)) :
    List.Chain' (fun x y => linkStep x y = true) (xs ++ m :: ys) := by
  obtain ⟨hxs, _, hj⟩ := List.chain'_append.mp h1
  refine List.chain'_append.mpr ⟨hxs, h2, ?_⟩
  intro x hx y hy
  simp only [List.head?_cons, Option.mem_def, Option.some.injEq] at hy
  subst hy
  exact hj x hx m (by simp)


/-- Helper: soundness of the backward (ancestor) walk on a fetchless
resolver with a consistently keyed cache. When the loop finishes within
fuel it leaves the state untouched, appends a fresh, duplicate-free tail of
ancestors to the accumulator, extends the visited set by exactly their
SAIDs, and every adjacent pair from the walk's current element through the
tail satisfies the supersedes-link step. -/
theorem backWalk_sound (st : ResolverState) (hcc : cacheConsistent st) :
    ∀ (fuel : Nat) (current : GovernanceFramework) (seen : List String)
      (acc anc : List GovernanceFramework) (seen2 : List String)
      (st2 : ResolverState),
      FrameworkResolver.backWalk none fuel st current seen acc =
        .ok (some (anc, seen2, st2)) →
      st2 = st ∧
      ∃ tail, anc = acc ++ tail ∧
        seen2 = (tail.map (fun v => v.said)).reverse ++ seen ∧
        (tail.map (fun v => v.said)).Nodup ∧
        (∀ s ∈ tail.map (fun v => v.said), s ∉ seen) ∧
        List.Chain' (fun x y => linkStep x y = true) (current :: tail) := by
  intro fuel
  induction fuel with
  | zero =>
    intro current seen acc anc seen2 st2 h
    rw [FrameworkResolver.backWalk] at h
    cases hs : current.supersedes with
    | none =>
      simp only [hs, Except.ok.injEq, Option.some.injEq, Prod.mk.injEq] at h
      obtain ⟨h1, h2, h3⟩ := h
      subst h1; subst h2; subst h3
      exact ⟨rfl, [], by simp⟩
    | some s =>
      by_cases hse : s = ""
      · simp only [hs, if_pos hse, Except.ok.injEq, Option.some.injEq,
          Prod.mk.injEq] at h
        obtain ⟨h1, h2, h3⟩ := h
        subst h1; subst h2; subst h3
        exact ⟨rfl, [], by simp⟩
      · simp only [hs, if_neg hse] at h
        simp at h
  | succ n ih =>
    intro current seen acc anc seen2 st2 h
    rw [FrameworkResolver.backWalk] at h
    cases hs : current.supersedes with
    | none =>
      simp only [hs, Except.ok.injEq, Option.some.injEq, Prod.mk.injEq] at h
      obtain ⟨h1, h2, h3⟩ := h
      subst h1; subst h2; subst h3
      exact ⟨rfl, [], by simp⟩
    | some s =>
      by_cases hse : s = ""
      · simp only [hs, if_pos hse, Except.ok.injEq, Option.some.injEq,
          Prod.mk.injEq] at h
        obtain ⟨h1, h2, h3⟩ := h
        subst h1; subst h2; subst h3
        exact ⟨rfl, [], by simp⟩
      · simp only [hs, if_neg hse, resolve_none_fetch st s] at h
        cases hres : assocGet st.cache s with
        | none =>
          simp only [hres, Except.ok.injEq, Option.some.injEq, Prod.mk.injEq] at h
          obtain ⟨h1, h2, h3⟩ := h
          subst h1; subst h2; subst h3
          exact ⟨rfl, [], by simp⟩
        | some prior =>
          simp only [hres] at h
          by_cases hseen : prior.said ∈ seen
          · rw [if_pos hseen] at h
            simp only [Except.ok.injEq, Option.some.injEq, Prod.mk.injEq] at h
            obtain ⟨h1, h2, h3⟩ := h
            subst h1; subst h2; subst h3
            exact ⟨rfl, [], by simp⟩
          · rw [if_neg hseen] at h
            obtain ⟨hst, tail2, htail, hseen2, hnd, hfresh, hlinks⟩ :=
              ih prior (prior.said :: seen) (acc ++ [prior]) anc seen2 st2 h
            refine ⟨hst, prior :: tail2, ?_, ?_, ?_, ?_, ?_⟩
            · rw [htail, List.append_assoc]; rfl
            · rw [hseen2]
              simp [List.append_assoc]
            · simp only [List.map_cons, List.nodup_cons]
              refine ⟨?_, hnd⟩
              intro hmem
              exact (hfresh _ hmem) (List.mem_cons_self _ _)
            · intro t ht
              simp only [List.map_cons, List.mem_cons] at ht
              rcases ht with rfl | ht
              · exact hseen
              · intro hmem
                exact (hfresh t ht) (List.mem_cons_of_mem _ hmem)
            · rw [List.chain'_cons]
              refine ⟨?_, hlinks⟩
              have hsaid : prior.said = s := hcc s prior hres
              simp [linkStep, hs, hsaid]

/-- Helper: soundness of the forward (descendant) walk on a fetchless
resolver whose cache is consistently keyed and whose forward supersession
index is consistent with the cache. When the loop finishes within fuel it
leaves the state untouched, appends a fresh, duplicate-free tail of
descendants, extends the visited set by exactly their SAIDs, and the tail
reversed followed by the walk's current element is supersedes-linked. -/
theorem fwdWalk_sound (st : ResolverState) (hcc : cacheConsistent st)
    (hec : edgesConsistent st) :
    ∀ (fuel : Nat) (current : GovernanceFramework) (seen : List String)
      (acc desc : List GovernanceFramework) (seen2 : List String)
      (st2 : ResolverState),
      FrameworkResolver.fwdWalk none fuel st current seen acc =
        .ok (some (desc, seen2, st2)) →
      st2 = st ∧
      ∃ tail, desc = acc ++ tail ∧
        seen2 = (tail.map (fun v => v.said)).reverse ++ seen ∧
        (tail.map (fun v => v.said)).Nodup ∧
        (∀ s ∈ tail.map (fun v => v.said), s ∉ seen) ∧
        List.Chain' (fun x y => linkStep x y = true) (tail.reverse ++ [current]) := by
  intro fuel
  induction fuel with
  | zero =>
    intro current seen acc desc seen2 st2 h
    rw [FrameworkResolver.fwdWalk] at h
    cases hn : assocGet st.supersededBy current.said with
    | none =>
      simp only [hn, Except.ok.injEq, Option.some.injEq, Prod.mk.injEq] at h
      obtain ⟨h1, h2, h3⟩ := h
      subst h1; subst h2; subst h3
      exact ⟨rfl, [], by simp⟩
    | some nextSaid =>
      by_cases hseen : nextSaid ∈ seen
      · simp only [hn, if_pos hseen, Except.ok.injEq, Option.some.injEq,
          Prod.mk.injEq] at h
        obtain ⟨h1, h2, h3⟩ := h
        subst h1; subst h2; subst h3
        exact ⟨rfl, [], by simp⟩
      · simp only [hn, if_neg hseen] at h
        simp at h
  | succ n ih =>
    intro current seen acc desc seen2 st2 h
    rw [FrameworkResolver.fwdWalk] at h
    cases hn : assocGet st.supersededBy current.said with
    | none =>
      simp only [hn, Except.ok.injEq, Option.some.injEq, Prod.mk.injEq] at h
      obtain ⟨h1, h2, h3⟩ := h
      subst h1; subst h2; subst h3
      exact ⟨rfl, [], by simp⟩
    | some nextSaid =>
      by_cases hseen : nextSaid ∈ seen
      · simp only [hn, if_pos hseen, Except.ok.injEq, Option.some.injEq,
          Prod.mk.injEq] at h
        obtain ⟨h1, h2, h3⟩ := h
        subst h1; subst h2; subst h3
        exact ⟨rfl, [], by simp⟩
      · simp only [hn, if_neg hseen, resolve_none_fetch st nextSaid] at h
        cases hres : assocGet st.cache nextSaid with
        | none =>
          simp only [hres, Except.ok.injEq, Option.some.injEq, Prod.mk.injEq] at h
          obtain ⟨h1, h2, h3⟩ := h
          subst h1; subst h2; subst h3
          exact ⟨rfl, [], by simp⟩
        | some newer =>
          simp only [hres] at h
          obtain ⟨hst, tail2, htail, hseen2, hnd, hfresh, hlinks⟩ :=
            ih newer (newer.said :: seen) (acc ++ [newer]) desc seen2 st2 h
          have hsaid : newer.said = nextSaid := hcc nextSaid newer hres
          have hlink : linkStep newer current = true := by
            obtain ⟨fw, hfw, hsup⟩ := hec current.said nextSaid hn
            have : fw = newer := by
              rw [hres] at hfw
              exact (Option.some.inj hfw).symm
            subst this
            simp [linkStep, hsup]
          refine ⟨hst, newer :: tail2, ?_, ?_, ?_, ?_, ?_⟩
          · rw [htail, List.append_assoc]; rfl
          · rw [hseen2]
            simp [List.append_assoc]
          · simp only [List.map_cons, List.nodup_cons]
            refine ⟨?_, hnd⟩
            intro hmem
            exact (hfresh _ hmem) (List.mem_cons_self _ _)
          · intro t ht
            simp only [List.map_cons, List.mem_cons] at ht
            rcases ht with rfl | ht
            · rw [hsaid]; exact hseen
            · intro hmem
              exact (hfresh t ht) (List.mem_cons_of_mem _ hmem)
          · rw [List.reverse_cons, List.append_assoc]
            exact chain_link_append tail2.reverse newer [current] hlinks
              (by simp [List.chain'_cons, hlink])

/-- C1 counterexample: `register_supersession` records arbitrary forward
edges with no consistency check, so a chain built after ordinary register
and register_supersession calls can violate the stated invariant. Register
A (supersedes nothing) and B (supersedes "EZ"), record "B supersedes A",
and resolve the chain from A: the result [B, A] has B.supersedes = "EZ",
which is not A's SAID. -/
theorem c1_counterexample :
    FrameworkResolver.resolve_chain none 3
      (FrameworkResolver.register_supersession
        (FrameworkResolver.register
          (FrameworkResolver.register emptyResolver (mkFw "EA" none none))
          (mkFw "EB" (some "EZ") none))
        "EB" "EA") "EA" =
      .ok (some (⟨[mkFw "EB" (some "EZ") none, mkFw "EA" none none]⟩,
        FrameworkResolver.register_supersession
          (FrameworkResolver.register
            (FrameworkResolver.register emptyResolver (mkFw "EA" none none))
            (mkFw "EB" (some "EZ") none))
          "EB" "EA")) ∧
    ¬ chainInvariant ⟨[mkFw "EB" (some "EZ") none, mkFw "EA" none none]⟩ :=
  ⟨rfl, by
    intro hinv
    obtain ⟨hlink, _⟩ := hinv
    rw [List.chain'_cons] at hlink
    exact absurd hlink.1 (by decide)⟩

/-- C1 (amended): on a fetchless resolver whose cache entries are keyed by
their framework's SAID and whose forward supersession index is consistent
with the cache (both hold for states populated by `register` alone, and for
`register_supersession` calls whose edge matches the superseding
framework's own supersedes field), every chain `resolve_chain` returns
satisfies the VersionChain invariant: adjacent supersedes links agree and
no SAID appears twice. -/
theorem c1_amended (st : ResolverState) (fuel : Nat) (said : String)
    (chain : VersionChain) (st2 : ResolverState)
    (hcc : cacheConsistent st) (hec : edgesConsistent st)
    (h : FrameworkResolver.resolve_chain none fuel st said =
      .ok (some (chain, st2))) :
    chainInvariant chain := by
  unfold FrameworkResolver.resolve_chain at h
  simp only [resolve_none_fetch st said] at h
  cases hstart : assocGet st.cache said with
  | none =>
    simp only [hstart, Except.ok.injEq, Option.some.injEq, Prod.mk.injEq] at h
    obtain ⟨h1, _⟩ := h
    subst h1
    exact ⟨by simp, by simp⟩
  | some start =>
    simp only [hstart] at h
    cases hb : FrameworkResolver.backWalk none fuel st start [start.said] [] with
    | error e => simp [hb] at h
    | ok ob =>
      cases ob with
      | none => simp [hb] at h
      | some trip =>
        obtain ⟨anc, seen1, stb⟩ := trip
        obtain ⟨hstb, tail, htail, hseen1, hnd, hfresh, hlinks⟩ :=
          backWalk_sound st hcc fuel start [start.said] [] anc seen1 stb hb
        rw [List.nil_append] at htail
        simp only [hb] at h
        rw [hstb] at h
        cases hf : FrameworkResolver.fwdWalk none fuel st start seen1 [] with
        | error e => simp [hf] at h
        | ok od =>
          cases od with
          | none => simp [hf] at h
          | some trip2 =>
            obtain ⟨desc, seen2, stf⟩ := trip2
            obtain ⟨hstf, tail2, htail2, _, hnd2, hfresh2, hlinks2⟩ :=
              fwdWalk_sound st hcc hec fuel start seen1 [] desc seen2 stf hf
            rw [List.nil_append] at htail2
            simp only [hf, Except.ok.injEq, Option.some.injEq, Prod.mk.injEq] at h
            obtain ⟨h1, _⟩ := h
            subst h1
            rw [htail, htail2]
            constructor
            · exact chain_link_append tail2.reverse start tail hlinks2 hlinks
            · simp only [List.map_append, List.map_reverse, List.map_cons]
              rw [List.nodup_append]
              refine ⟨List.nodup_reverse.mpr hnd2, ?_, ?_⟩
              · rw [List.nodup_cons]
                refine ⟨?_, hnd⟩
                intro hmem
                exact (hfresh start.said hmem) (by simp)
              · intro x hx hx2
                have hxm : x ∈ tail2.map (fun v => v.said) := List.mem_reverse.mp hx
                have hnot : x ∉ seen1 := hfresh2 x hxm
                rw [hseen1] at hnot
                rcases List.mem_cons.mp hx2 with rfl | hxt
                · exact hnot (by simp)
                · exact hnot (by simp [List.mem_reverse, hxt])

/-- Witness for C1 (amended): the singleton state registering one
framework with no supersession satisfies both consistency hypotheses and
yields the invariant for its one-element chain. -/
theorem c1_amended_witness :
    chainInvariant ⟨[mkFw "EA" none none]⟩ :=
  c1_amended (FrameworkResolver.register emptyResolver (mkFw "EA" none none)) 1
    "EA" ⟨[mkFw "EA" none none]⟩
    (FrameworkResolver.register emptyResolver (mkFw "EA" none none))
    (by
      intro k fw h
      simp only [FrameworkResolver.register, emptyResolver, mkFw, assocGet] at h
      by_cases hk : "EA" = k
      · rw [if_pos hk] at h
        injection h with h2
        rw [← h2]
        exact hk
      · rw [if_neg hk] at h
        simp at h)
    (by
      intro old new h
      simp only [FrameworkResolver.register, emptyResolver, mkFw, assocGet] at h
      exact Option.noConfusion h)
    rfl

/-- Helper: the backward walk exits immediately when the current element's
supersedes is falsy. -/
theorem backWalk_exit (f : Option (String → FetchOutcome)) (fuel : Nat)
    (st : ResolverState) (current : GovernanceFramework) (seen : List String)
    (acc : List GovernanceFramework)
    (h : strTruthy current.supersedes = false) :
    FrameworkResolver.backWalk f fuel st current seen acc =
      .ok (some (acc, seen, st)) := by
  rcases strTruthy_false h with h2 | h2 <;>
    (rw [FrameworkResolver.backWalk]; simp [h2])

/-- Helper: the backward walk stops, state as updated by the lookup, when
the resolved prior version's SAID was already visited. -/
theorem backWalk_stop_seen (f : Option (String → FetchOutcome)) (fuel : Nat)
    (st : ResolverState) (current : GovernanceFramework) (seen : List String)
    (acc : List GovernanceFramework) (s : String)
    (prior : GovernanceFramework) (st1 : ResolverState)
    (hs : current.supersedes = some s) (hne : s ≠ "")
    (hres : FrameworkResolver.resolve f st s = .ok (some prior, st1))
    (hseen : prior.said ∈ seen) :
    FrameworkResolver.backWalk f (fuel + 1) st current seen acc =
      .ok (some (acc, seen, st1)) := by
  rw [FrameworkResolver.backWalk]
  simp only [hs, if_neg hne, hres, if_pos hseen]

/-- Helper: one iteration of the backward walk. -/
theorem backWalk_step (f : Option (String → FetchOutcome)) (fuel : Nat)
    (st : ResolverState) (current : GovernanceFramework) (seen : List String)
    (acc : List GovernanceFramework) (s : String)
    (prior : GovernanceFramework) (st1 : ResolverState)
    (hs : current.supersedes = some s) (hne : s ≠ "")
    (hres : FrameworkResolver.resolve f st s = .ok (some prior, st1))
    (hseen : prior.said ∉ seen) :
    FrameworkResolver.backWalk f (fuel + 1) st current seen acc =
      FrameworkResolver.backWalk f fuel st1 prior (prior.said :: seen)
        (acc ++ [prior]) := by
  conv_lhs => rw [FrameworkResolver.backWalk]
  simp only [hs, if_neg hne, hres, if_neg hseen]

/-- Helper: the forward walk exits immediately when the current SAID has no
forward supersession edge. -/
theorem fwdWalk_exit (f : Option (String → FetchOutcome)) (fuel : Nat)
    (st : ResolverState) (current : GovernanceFramework) (seen : List String)
    (acc : List GovernanceFramework)
    (h : assocGet st.supersededBy current.said = none) :
    FrameworkResolver.fwdWalk f fuel st current seen acc =
      .ok (some (acc, seen, st)) := by
  rw [FrameworkResolver.fwdWalk]
  simp [h]

/-- Helper: the forward walk stops when the indexed successor SAID was
already visited (checked before resolving it). -/
theorem fwdWalk_stop_seen (f : Option (String → FetchOutcome)) (fuel : Nat)
    (st : ResolverState) (current : GovernanceFramework) (seen : List String)
    (acc : List GovernanceFramework) (nextSaid : String)
    (hn : assocGet st.supersededBy current.said = some nextSaid)
    (hseen : nextSaid ∈ seen) :
    FrameworkResolver.fwdWalk f fuel st current seen acc =
      .ok (some (acc, seen, st)) := by
  rw [FrameworkResolver.fwdWalk]
  simp only [hn, if_pos hseen]

/-- Helper: one iteration of the forward walk. -/
theorem fwdWalk_step (f : Option (String → FetchOutcome)) (fuel : Nat)
    (st : ResolverState) (current : GovernanceFramework) (seen : List String)
    (acc : List GovernanceFramework) (nextSaid : String)
    (newer : GovernanceFramework) (st1 : ResolverState)
    (hn : assocGet st.supersededBy current.said = some nextSaid)
    (hseen : nextSaid ∉ seen)
    (hres : FrameworkResolver.resolve f st nextSaid = .ok (some newer, st1)) :
    FrameworkResolver.fwdWalk f (fuel + 1) st current seen acc =
      FrameworkResolver.fwdWalk f fuel st1 newer (newer.said :: seen)
        (acc ++ [newer]) := by
  conv_lhs => rw [FrameworkResolver.fwdWalk]
  simp only [hn, if_neg hseen, hres]


/-- C4: for a registered lineage A (supersedes nothing), B (supersedes A),
C (supersedes B), with distinct nonempty SAIDs, `resolve_chain` queried
from any of the three SAIDs returns [C, B, A] newest-first with the state
untouched, the chain's active_said is C's SAID, and `resolve_active`
returns C from any of the three SAIDs. Fuel k+2 covers any two loop
iterations, the most any of these walks performs. -/
theorem c4_three_version_lineage (A B C : GovernanceFramework) (k : Nat)
    (st : ResolverState)
    (hst : st = FrameworkResolver.register (FrameworkResolver.register
      (FrameworkResolver.register emptyResolver A) B) C)
    (hA : strTruthy A.supersedes = false)
    (hB : B.supersedes = some A.said)
    (hC : C.supersedes = some B.said)
    (hAB : A.said ≠ B.said) (hAC : A.said ≠ C.said) (hBC : B.said ≠ C.said)
    (hAne : A.said ≠ "") (hBne : B.said ≠ "") :
    FrameworkResolver.resolve_chain none (k + 1 + 1) st A.said =
      .ok (some (⟨[C, B, A]⟩, st)) ∧
    FrameworkResolver.resolve_chain none (k + 1 + 1) st B.said =
      .ok (some (⟨[C, B, A]⟩, st)) ∧
    FrameworkResolver.resolve_chain none (k + 1 + 1) st C.said =
      .ok (some (⟨[C, B, A]⟩, st)) ∧
    VersionChain.active_said ⟨[C, B, A]⟩ = some C.said ∧
    FrameworkResolver.resolve_active none (k + 1 + 1) st A.said =
      .ok (some (some C, st)) ∧
    FrameworkResolver.resolve_active none (k + 1 + 1) st B.said =
      .ok (some (some C, st)) ∧
    FrameworkResolver.resolve_active none (k + 1 + 1) st C.said =
      .ok (some (some C, st)) := by
  have hstate : FrameworkResolver.register (FrameworkResolver.register
      (FrameworkResolver.register emptyResolver A) B) C = stABC A B C := by
    rcases strTruthy_false hA with h | h <;>
      simp [FrameworkResolver.register, emptyResolver, stABC, h, hB, hC,
        hAne, hBne]
  rw [hstate] at hst
  subst hst
  have hgetA : assocGet (stABC A B C).cache A.said = some A := by
    simp [stABC, assocGet, Ne.symm hAC, Ne.symm hAB]
  have hgetB : assocGet (stABC A B C).cache B.said = some B := by
    simp [stABC, assocGet, Ne.symm hBC]
  have hgetC : assocGet (stABC A B C).cache C.said = some C := by
    simp [stABC, assocGet]
  have hlookA : assocGet (stABC A B C).supersededBy A.said = some B.said := by
    simp [stABC, assocGet, Ne.symm hAB]
  have hlookB : assocGet (stABC A B C).supersededBy B.said = some C.said := by
    simp [stABC, assocGet]
  have hlookC : assocGet (stABC A B C).supersededBy C.said = none := by
    simp [stABC, assocGet, hBC, hAC]
  have hresA : FrameworkResolver.resolve none (stABC A B C) A.said =
      .ok (some A, stABC A B C) := by
    rw [resolve_none_fetch, hgetA]
  have hresB : FrameworkResolver.resolve none (stABC A B C) B.said =
      .ok (some B, stABC A B C) := by
    rw [resolve_none_fetch, hgetB]
  have hresC : FrameworkResolver.resolve none (stABC A B C) C.said =
      .ok (some C, stABC A B C) := by
    rw [resolve_none_fetch, hgetC]
  have hchA : FrameworkResolver.resolve_chain none (k + 1 + 1) (stABC A B C)
      A.said = .ok (some (⟨[C, B, A]⟩, stABC A B C)) := by
    unfold FrameworkResolver.resolve_chain
    simp only [hresA,
      backWalk_exit none (k + 1 + 1) (stABC A B C) A [A.said] [] hA]
    rw [fwdWalk_step none (k + 1) (stABC A B C) A [A.said] [] B.said B
      (stABC A B C) hlookA (by simp [Ne.symm hAB]) hresB]
    rw [fwdWalk_step none k (stABC A B C) B [B.said, A.said] ([] ++ [B])
      C.said C (stABC A B C) hlookB
      (by simp [Ne.symm hBC, Ne.symm hAC]) hresC]
    rw [fwdWalk_exit none k (stABC A B C) C [C.said, B.said, A.said]
      (([] ++ [B]) ++ [C]) hlookC]
    simp
  have hchB : FrameworkResolver.resolve_chain none (k + 1 + 1) (stABC A B C)
      B.said = .ok (some (⟨[C, B, A]⟩, stABC A B C)) := by
    unfold FrameworkResolver.resolve_chain
    simp only [hresB,
      backWalk_step none (k + 1) (stABC A B C) B [B.said] [] A.said A
        (stABC A B C) hB hAne hresA (by simp [hAB]),
      backWalk_exit none (k + 1) (stABC A B C) A [A.said, B.said]
        ([] ++ [A]) hA]
    rw [fwdWalk_step none (k + 1) (stABC A B C) B [A.said, B.said] [] C.said C
      (stABC A B C) hlookB (by simp [Ne.symm hBC, Ne.symm hAC]) hresC]
    rw [fwdWalk_exit none (k + 1) (stABC A B C) C [C.said, A.said, B.said]
      ([] ++ [C]) hlookC]
    simp
  have hchC : FrameworkResolver.resolve_chain none (k + 1 + 1) (stABC A B C)
      C.said = .ok (some (⟨[C, B, A]⟩, stABC A B C)) := by
    unfold FrameworkResolver.resolve_chain
    simp only [hresC,
      backWalk_step none (k + 1) (stABC A B C) C [C.said] [] B.said B
        (stABC A B C) hC hBne hresB (by simp [hBC]),
      backWalk_step none k (stABC A B C) B [B.said, C.said] ([] ++ [B])
        A.said A (stABC A B C) hB hAne hresA (by simp [hAB, hAC]),
      backWalk_exit none k (stABC A B C) A [A.said, B.said, C.said]
        (([] ++ [B]) ++ [A]) hA]
    rw [fwdWalk_exit none (k + 1 + 1) (stABC A B C) C [A.said, B.said, C.said]
      [] hlookC]
    simp
  refine ⟨hchA, hchB, hchC, rfl, ?_, ?_, ?_⟩ <;>
    unfold FrameworkResolver.resolve_active
  · simp only [hchA]; rfl
  · simp only [hchB]; rfl
  · simp only [hchC]; rfl

/-- Witness for C4: the concrete lineage EA, EB supersedes EA, EC
supersedes EB resolves from EA to the chain [EC, EB, EA]. -/
theorem c4_three_version_lineage_witness :
    FrameworkResolver.resolve_chain none (0 + 1 + 1)
      (FrameworkResolver.register (FrameworkResolver.register
        (FrameworkResolver.register emptyResolver (mkFw "EA" none none))
        (mkFw "EB" (some "EA") none)) (mkFw "EC" (some "EB") none)) "EA" =
      .ok (some (⟨[mkFw "EC" (some "EB") none, mkFw "EB" (some "EA") none,
          mkFw "EA" none none]⟩,
        FrameworkResolver.register (FrameworkResolver.register
          (FrameworkResolver.register emptyResolver (mkFw "EA" none none))
          (mkFw "EB" (some "EA") none)) (mkFw "EC" (some "EB") none))) :=
  (c4_three_version_lineage (mkFw "EA" none none) (mkFw "EB" (some "EA") none)
    (mkFw "EC" (some "EB") none) 0 _ rfl rfl rfl rfl (by decide) (by decide)
    (by decide) (by decide) (by decide)).1

/-- Helper: a successful association lookup means the key occurs among the
stored keys. -/
theorem key_mem_of_assocGet {α : Type} (l : List (String × α)) (k : String)
    (v : α) (h : assocGet l k = some v) : k ∈ l.map Prod.fst := by
  induction l with
  | nil => simp [assocGet] at h
  | cons p rest ih =>
    obtain ⟨k2, v2⟩ := p
    simp only [assocGet] at h
    by_cases hk : k2 = k
    · simp [hk]
    · rw [if_neg hk] at h
      simp [ih h]

/-- Helper: the termination measure never exceeds the cache size. -/
theorem keysNotSeen_le_length (st : ResolverState) (seen : List String) :
    keysNotSeen st seen ≤ st.cache.length := by
  unfold keysNotSeen
  calc ((st.cache.map Prod.fst).toFinset.filter (fun k => k ∉ seen)).card
      ≤ (st.cache.map Prod.fst).toFinset.card := Finset.card_filter_le _ _
    _ ≤ (st.cache.map Prod.fst).length := (st.cache.map Prod.fst).toFinset_card_le
    _ = st.cache.length := List.length_map _ _

/-- Helper: growing the visited set can only shrink the measure. -/
theorem keysNotSeen_mono (st : ResolverState) (seen seen2 : List String)
    (hsub : ∀ x ∈ seen, x ∈ seen2) :
    keysNotSeen st seen2 ≤ keysNotSeen st seen := by
  unfold keysNotSeen
  apply Finset.card_le_card
  intro x hx
  rw [Finset.mem_filter] at hx ⊢
  exact ⟨hx.1, fun hmem => hx.2 (hsub x hmem)⟩

/-- Helper: visiting a fresh cache key strictly shrinks the measure. -/
theorem keysNotSeen_lt (st : ResolverState) (seen : List String) (k : String)
    (hk : k ∈ st.cache.map Prod.fst) (hns : k ∉ seen) :
    keysNotSeen st (k :: seen) < keysNotSeen st seen := by
  unfold keysNotSeen
  have hmem : k ∈ (st.cache.map Prod.fst).toFinset.filter (fun x => x ∉ seen) :=
    Finset.mem_filter.mpr ⟨List.mem_toFinset.mpr hk, hns⟩
  calc ((st.cache.map Prod.fst).toFinset.filter (fun x => x ∉ k :: seen)).card
      ≤ (((st.cache.map Prod.fst).toFinset.filter (fun x => x ∉ seen)).erase
          k).card := by
        apply Finset.card_le_card
        intro x hx
        rw [Finset.mem_filter] at hx
        rw [Finset.mem_erase]
        have hx2 := hx.2
        simp only [List.mem_cons, not_or] at hx2
        exact ⟨hx2.1, Finset.mem_filter.mpr ⟨hx.1, hx2.2⟩⟩
    _ < _ := Finset.card_erase_lt_of_mem hmem

/-- Helper: on a fetchless, consistently keyed resolver the backward walk
always finishes once the fuel exceeds the number of unvisited cache keys:
each iteration visits a fresh cache key, so the visited-set guard bounds
the loop. -/
theorem backWalk_total (st : ResolverState) (hcc : cacheConsistent st) :
    ∀ (fuel : Nat) (seen : List String), keysNotSeen st seen < fuel →
      ∀ (current : GovernanceFramework) (acc : List GovernanceFramework),
      ∃ anc seen2,
        FrameworkResolver.backWalk none fuel st current seen acc =
          .ok (some (anc, seen2, st)) ∧ ∀ x ∈ seen, x ∈ seen2 := by
  intro fuel
  induction fuel with
  | zero => intro seen hlt; exact absurd hlt (Nat.not_lt_zero _)
  | succ n ih =>
    intro seen hlt current acc
    cases hs : current.supersedes with
    | none =>
      exact ⟨acc, seen, backWalk_exit none (n + 1) st current seen acc
        (by simp [strTruthy, hs]), fun x hx => hx⟩
    | some s =>
      by_cases hse : s = ""
      · exact ⟨acc, seen, backWalk_exit none (n + 1) st current seen acc
          (by simp [strTruthy, hs, hse]), fun x hx => hx⟩
      · cases hres : assocGet st.cache s with
        | none =>
          refine ⟨acc, seen, ?_, fun x hx => hx⟩
          conv_lhs => rw [FrameworkResolver.backWalk]
          simp only [hs, if_neg hse, resolve_none_fetch, hres]
        | some prior =>
          by_cases hseen : prior.said ∈ seen
          · exact ⟨acc, seen, backWalk_stop_seen none n st current seen acc s
              prior st hs hse (by rw [resolve_none_fetch, hres]) hseen,
              fun x hx => hx⟩
          · have hkey : prior.said ∈ st.cache.map Prod.fst := by
              rw [hcc s prior hres]
              exact key_mem_of_assocGet st.cache s prior hres
            have hlt2 : keysNotSeen st (prior.said :: seen) < n :=
              lt_of_lt_of_le (keysNotSeen_lt st seen prior.said hkey hseen)
                (Nat.lt_succ_iff.mp hlt)
            obtain ⟨anc, seen2, heq, hsub⟩ :=
              ih (prior.said :: seen) hlt2 prior (acc ++ [prior])
            refine ⟨anc, seen2, ?_, ?_⟩
            · rw [backWalk_step none n st current seen acc s prior st hs hse
                (by rw [resolve_none_fetch, hres]) hseen]
              exact heq
            · intro x hx
              exact hsub x (List.mem_cons_of_mem _ hx)

/-- Helper: the forward walk likewise always finishes once the fuel exceeds
the number of unvisited cache keys. -/
theorem fwdWalk_total (st : ResolverState) (hcc : cacheConsistent st) :
    ∀ (fuel : Nat) (seen : List String), keysNotSeen st seen < fuel →
      ∀ (current : GovernanceFramework) (acc : List GovernanceFramework),
      ∃ desc seen2,
        FrameworkResolver.fwdWalk none fuel st current seen acc =
          .ok (some (desc, seen2, st)) ∧ ∀ x ∈ seen, x ∈ seen2 := by
  intro fuel
  induction fuel with
  | zero => intro seen hlt; exact absurd hlt (Nat.not_lt_zero _)
  | succ n ih =>
    intro seen hlt current acc
    cases hn : assocGet st.supersededBy current.said with
    | none =>
      exact ⟨acc, seen, fwdWalk_exit none (n + 1) st current seen acc hn,
        fun x hx => hx⟩
    | some nextSaid =>
      by_cases hseen : nextSaid ∈ seen
      · exact ⟨acc, seen, fwdWalk_stop_seen none (n + 1) st current seen acc
          nextSaid hn hseen, fun x hx => hx⟩
      · cases hres : assocGet st.cache nextSaid with
        | none =>
          refine ⟨acc, seen, ?_, fun x hx => hx⟩
          conv_lhs => rw [FrameworkResolver.fwdWalk]
          simp only [hn, if_neg hseen, resolve_none_fetch, hres]
        | some newer =>
          have hsaid : newer.said = nextSaid := hcc nextSaid newer hres
          have hkey : newer.said ∈ st.cache.map Prod.fst := by
            rw [hsaid]
            exact key_mem_of_assocGet st.cache nextSaid newer hres
          have hnseen : newer.said ∉ seen := by rw [hsaid]; exact hseen
          have hlt2 : keysNotSeen st (newer.said :: seen) < n :=
            lt_of_lt_of_le (keysNotSeen_lt st seen newer.said hkey hnseen)
              (Nat.lt_succ_iff.mp hlt)
          obtain ⟨desc, seen2, heq, hsub⟩ :=
            ih (newer.said :: seen) hlt2 newer (acc ++ [newer])
          refine ⟨desc, seen2, ?_, ?_⟩
          · rw [fwdWalk_step none n st current seen acc nextSaid newer st hn
              hseen (by rw [resolve_none_fetch, hres])]
            exact heq
          · intro x hx
            exact hsub x (List.mem_cons_of_mem _ hx)

/-- Helper: on a fetchless, consistently keyed resolver, `resolve_chain`
finishes for every SAID once fuel exceeds the cache size. -/
theorem resolve_chain_total (st : ResolverState) (hcc : cacheConsistent st)
    (said : String) (fuel : Nat) (hfuel : st.cache.length < fuel) :
    ∃ chain st2, FrameworkResolver.resolve_chain none fuel st said =
      .ok (some (chain, st2)) := by
  unfold FrameworkResolver.resolve_chain
  cases hstart : assocGet st.cache said with
  | none =>
    refine ⟨⟨[]⟩, st, ?_⟩
    simp only [resolve_none_fetch, hstart]
  | some start =>
    have h0 : keysNotSeen st [start.said] < fuel :=
      lt_of_le_of_lt (keysNotSeen_le_length st [start.said]) hfuel
    obtain ⟨anc, seen1, hbw, hsub⟩ :=
      backWalk_total st hcc fuel [start.said] h0 start []
    have h1 : keysNotSeen st seen1 < fuel :=
      lt_of_le_of_lt (le_trans (keysNotSeen_mono st [start.said] seen1 hsub)
        (keysNotSeen_le_length st [start.said])) hfuel
    obtain ⟨desc, seen2, hfw, _⟩ := fwdWalk_total st hcc fuel seen1 h1 start []
    refine ⟨⟨desc.reverse ++ start :: anc⟩, st, ?_⟩
    simp only [resolve_none_fetch, hstart, hbw, hfw]

/-- C5: a registered framework whose supersedes field is its own SAID
(self-referential cycle) resolves to a chain containing it exactly once,
for any fuel beyond one loop iteration — the visited-set guard stops both
walks immediately; and more generally, on a fetchless resolver whose cache
entries are keyed by their framework's SAID, both traversal loops of
`resolve_chain` finish within cache-size fuel for every SAID and every
supersession-edge graph, cyclic or not. -/
theorem c5_cycle_guard_termination :
    (∀ (fw : GovernanceFramework) (k : Nat), fw.supersedes = some fw.said →
      FrameworkResolver.resolve_chain none (k + 1)
        (FrameworkResolver.register emptyResolver fw) fw.said =
        .ok (some (⟨[fw]⟩, FrameworkResolver.register emptyResolver fw))) ∧
    (∀ (st : ResolverState) (said : String) (fuel : Nat),
      cacheConsistent st → st.cache.length < fuel →
      ∃ chain st2, FrameworkResolver.resolve_chain none fuel st said =
        .ok (some (chain, st2))) := by
  constructor
  · intro fw k hsup
    by_cases hz : fw.said = ""
    · have hreg : FrameworkResolver.register emptyResolver fw =
          (⟨[(fw.said, fw)], []⟩ : ResolverState) := by
        simp [FrameworkResolver.register, emptyResolver, hsup, hz]
      rw [hreg]
      unfold FrameworkResolver.resolve_chain
      have hget : assocGet [(fw.said, fw)] fw.said = some fw := by
        simp [assocGet]
      simp only [resolve_none_fetch, hget,
        backWalk_exit none (k + 1) (⟨[(fw.said, fw)], []⟩ : ResolverState) fw
          [fw.said] [] (by simp [strTruthy, hsup, hz]),
        fwdWalk_exit none (k + 1) (⟨[(fw.said, fw)], []⟩ : ResolverState) fw
          [fw.said] [] (by simp [assocGet])]
      simp
    · have hreg : FrameworkResolver.register emptyResolver fw =
          (⟨[(fw.said, fw)], [(fw.said, fw.said)]⟩ : ResolverState) := by
        simp [FrameworkResolver.register, emptyResolver, hsup, hz]
      rw [hreg]
      unfold FrameworkResolver.resolve_chain
      have hget : assocGet [(fw.said, fw)] fw.said = some fw := by
        simp [assocGet]
      simp only [resolve_none_fetch, hget,
        backWalk_stop_seen none k
          (⟨[(fw.said, fw)], [(fw.said, fw.said)]⟩ : ResolverState) fw
          [fw.said] [] fw.said fw
          (⟨[(fw.said, fw)], [(fw.said, fw.said)]⟩ : ResolverState) hsup hz
          (by rw [resolve_none_fetch, hget]) (by simp),
        fwdWalk_stop_seen none (k + 1)
          (⟨[(fw.said, fw)], [(fw.said, fw.said)]⟩ : ResolverState) fw
          [fw.said] [] fw.said (by simp [assocGet]) (by simp)]
      simp
  · intro st said fuel hcc hlen
    exact resolve_chain_total st hcc said fuel hlen

/-- Witness for C5: the concrete self-cycle ECYC supersedes ECYC resolves
to the one-element chain, and an empty consistent resolver's chain walk
finishes within fuel 1. -/
theorem c5_cycle_guard_termination_witness :
    FrameworkResolver.resolve_chain none (0 + 1)
      (FrameworkResolver.register emptyResolver
        (mkFw "ECYC" (some "ECYC") none)) "ECYC" =
      .ok (some (⟨[mkFw "ECYC" (some "ECYC") none]⟩,
        FrameworkResolver.register emptyResolver
          (mkFw "ECYC" (some "ECYC") none))) ∧
    (∃ chain st2, FrameworkResolver.resolve_chain none 1 emptyResolver
      "EFrameworkSAID" = .ok (some (chain, st2))) :=
  ⟨c5_cycle_guard_termination.1 (mkFw "ECYC" (some "ECYC") none) 0 rfl,
   c5_cycle_guard_termination.2 emptyResolver "EFrameworkSAID" 1
     (by intro k fw h; simp [emptyResolver, assocGet] at h) (by decide)⟩
